import Mathlib

/-
Verification of the site-crawling / page-verification engine in
`project.py` (Selenium automation tester).  Python strings are embedded
as lists of characters (`Str`), fallible operations as `Except`/`Option`
values, and the external collaborators (HTTP prober, browser driver,
URL-join) as explicit parameters.  All definitions are executable.
-/

namespace AutoTester

/-- Python strings are embedded as lists of characters. -/
abbrev Str := List Char

/-- Converts a Lean string literal to the embedded string type. -/
def str (s : String) : Str := s.data

/-- Decimal rendering of a natural number, as Python's `str(n)` produces
for a non-negative int. -/
def natToStr (n : Nat) : Str := (Nat.repr n).data

/-- SAFE_CLICK_BLACKLIST from project.py line 58.  The patterns are raw
strings containing only literal word characters (no regex
metacharacters), so `re.search(pattern, text)` is exactly substring
containment of the pattern in the text. -/
def SAFE_CLICK_BLACKLIST : List Str :=
  [str "delete", str "remove", str "logout", str "signout",
   str "pay", str "purchase", str "buy"]

/-- is_safe_text from project.py lines 63-70: an empty (falsy) text is
safe; otherwise the text is lowercased and is unsafe when any blacklist
pattern occurs inside it. -/
def is_safe_text (text : Str) : Bool :=
  if text = [] then true
  else !(SAFE_CLICK_BLACKLIST.any fun p => decide (p <:+: text.map Char.toLower))

/-- SiteTester.normalise from project.py lines 130-133: prepend
"http://" when the URL does not already start with "http". -/
def normalise (url : Str) : Str :=
  if (str "http").isPrefixOf url then url else str "http://" ++ url

/-- http_status_check from project.py lines 157-162: the HTTP probe
(`requests.head`) either yields a status code, returned with an empty
error message, or raises, in which case no status code and the
exception's message are returned. -/
def http_status_check (probe : Except Str Nat) : Option Nat × Str :=
  match probe with
  | .ok code => (some code, str "")
  | .error e => (none, e)

/-- The result of one execution of a function body wrapped by
retry_on_stale: it returns a value, raises
StaleElementReferenceException, or raises some other exception. -/
inductive AttemptResult (α : Type) where
  | ok (v : α)
  | stale
  | other (e : Str)
deriving DecidableEq

/-- Exceptions that can escape the retry wrapper. -/
inductive PyError where
  | runtimeNoActive
  | other (e : Str)
deriving DecidableEq

/-- Inner loop of retry_on_stale (project.py lines 75-79) with explicit
fuel; the body's outcome on attempt number i is `f i`.  Returns the
overall result, the number of calls made to the body, and the number of
`time.sleep(1)` pauses executed.  When the `for` loop exhausts its 3
iterations the `except` blocks have all been exited, so the bare
`raise` on line 80 finds no active exception and CPython raises
`RuntimeError: No active exception to re-raise`
(`PyError.runtimeNoActive`), not the staleness exception. -/
def retryFrom (f : Nat → AttemptResult α) (i : Nat) : Nat → Except PyError α × Nat × Nat
  | 0 => (.error .runtimeNoActive, 0, 0)
  | fuel + 1 =>
    match f i with
    | .ok v => (.ok v, 1, 0)
    | .other e => (.error (.other e), 1, 0)
    | .stale =>
      let (r, calls, sleeps) := retryFrom f (i + 1) fuel
      (r, calls + 1, sleeps + 1)

/-- retry_on_stale from project.py lines 73-81: run the wrapped body up
to 3 times, sleeping 1 second after each staleness failure. -/
def retry_on_stale (f : Nat → AttemptResult α) : Except PyError α × Nat × Nat :=
  retryFrom f 0 3

/-- A Check Record appended to a PageResult by PageResult.add
(project.py lines 90-91): a name, a passed flag and a message. -/
structure Record where
  name : Str
  passed : Bool
  message : Str
deriving DecidableEq

/-- A button element as safe_click_buttons observes it in one completed
(staleness-free) execution: its visible text (`b.text`, empty when
none), its `aria-label` attribute (`none` models Python `None`), and
the outcome of `b.click()` (`some e` models a raised exception with
message e). -/
structure Button where
  text : Str
  ariaLabel : Option Str
  clickError : Option Str
deriving DecidableEq

/-- The derived text `(b.text or b.get_attribute('aria-label') or '')`
from project.py line 214: the first truthy (non-empty, non-None) value,
else the empty string. -/
def derivedText (b : Button) : Str :=
  if b.text ≠ [] then b.text
  else match b.ariaLabel with
    | some a => a
    | none => []

/-- Observable actions of safe_click_buttons, in execution order. -/
inductive Ev where
  | clickAttempt (text : Str)
  | sleep (seconds : Nat)
  | record (r : Record)
  | back
deriving DecidableEq

/-- Name of the indexed per-click record `button_click_<i>`. -/
def mkClickName (i : Nat) : Str := str "button_click_" ++ natToStr i

/-- Message of a successful click record (project.py line 220). -/
def clickedMsg (text : Str) : Str :=
  str "Clicked button: \"" ++ text ++ str "\""

/-- Fixed part of the failed-click message (project.py line 225), up to
the appended exception text. -/
def couldNotClickMsgStart (text : Str) : Str :=
  str "Could not click \"" ++ text ++ str "\" - "

/-- Message of a failed click record (project.py line 225). -/
def couldNotClickMsg (text e : Str) : Str :=
  couldNotClickMsgStart text ++ e

/-- The loop of safe_click_buttons (project.py lines 211-226), with
`clicked` as the running counter of successful clicks.  Returns the
event trace of the loop and the final value of `clicked`.  The loop
breaks as soon as `clicked >= 3`; unsafe-text buttons are skipped with
no action; a successful click produces click, 1s sleep, a pass record,
`driver.back()` and another 1s sleep, then increments the counter; a
click that raises produces a failed record and leaves the counter
unchanged. -/
def clickLoop : List Button → Nat → List Ev × Nat
  | [], clicked => ([], clicked)
  | b :: rest, clicked =>
    if 3 ≤ clicked then ([], clicked)
    else
      if is_safe_text (derivedText b) then
        match b.clickError with
        | none =>
          (Ev.clickAttempt (derivedText b) :: Ev.sleep 1 ::
             Ev.record ⟨mkClickName clicked, true, clickedMsg (derivedText b)⟩ ::
             Ev.back :: Ev.sleep 1 :: (clickLoop rest (clicked + 1)).1,
           (clickLoop rest (clicked + 1)).2)
        | some e =>
          (Ev.clickAttempt (derivedText b) ::
             Ev.record ⟨mkClickName clicked, false,
                        couldNotClickMsg (derivedText b) e⟩ ::
             (clickLoop rest clicked).1,
           (clickLoop rest clicked).2)
      else clickLoop rest clicked

/-- The records appended to the PageResult, in order, by a trace. -/
def recordsOf (evs : List Ev) : List Record :=
  evs.filterMap fun ev => match ev with
    | .record r => some r
    | _ => none

/-- The summary record appended when no button was clicked
(project.py lines 227-228). -/
def noClickSummary : Record :=
  ⟨str "button_clicks", true, str "No safe clickable buttons found or none clicked"⟩

/-- safe_click_buttons from project.py lines 204-228, restricted to its
appended records: run the click loop over the page's buttons and, when
zero buttons were clicked, append the single summary pass record. -/
def safe_click_buttons (buttons : List Button) : List Record :=
  if (clickLoop buttons 0).2 = 0 then
    recordsOf (clickLoop buttons 0).1 ++ [noClickSummary]
  else recordsOf (clickLoop buttons 0).1

/-- A trace is an interleaving of complete click blocks: every click
attempt is followed either by the 1s pause, a pass record whose message
names the clicked element's text, a `driver.back()` navigation and the
second pause — all before the next candidate's events — or, for a click
that raised, immediately by a failed record whose message names that
element's text. -/
def wellFormedTrace : List Ev → Bool
  | [] => true
  | .clickAttempt t :: .sleep 1 :: .record r :: .back :: .sleep 1 :: rest =>
    r.passed && decide (r.message = clickedMsg t) && wellFormedTrace rest
  | .clickAttempt t :: .record r :: rest =>
    !r.passed && (couldNotClickMsgStart t).isPrefixOf r.message &&
      wellFormedTrace rest
  | _ => false

/-- fill_and_submit_forms from project.py lines 172-182, restricted to
its appended records: zero forms and one-or-more forms both append a
single pass record (the fill/submit logic is omitted in the source). -/
def fill_and_submit_forms (forms : Nat) : List Record :=
  if forms = 0 then [⟨str "forms_detected", true, str "No forms on page"⟩]
  else [⟨str "forms_detected", true, natToStr forms ++ str " form(s)"⟩]

/-- One probe of a discovered link (project.py lines 192-197): a status
code of 400 or more contributes `(link, code)` to the broken list, a
raised transport error contributes `(link, message)`, and a status
below 400 contributes nothing. -/
def brokenOf (probe : Str → Except Str Nat) (link : Str) :
    Option (Str × (Nat ⊕ Str)) :=
  match probe link with
  | .ok code => if 400 ≤ code then some (link, .inl code) else none
  | .error e => some (link, .inr e)

/-- The probing loop of check_internal_links (project.py lines 188-198):
stop as soon as 20 links have been checked, increment `checked` for
every probed link.  Returns the broken list and the final counter. -/
def linkLoop (probe : Str → Except Str Nat) :
    List Str → Nat → List (Str × (Nat ⊕ Str)) × Nat
  | [], checked => ([], checked)
  | link :: rest, checked =>
    if 20 ≤ checked then ([], checked)
    else
      match brokenOf probe link with
      | some entry =>
        (entry :: (linkLoop probe rest (checked + 1)).1,
         (linkLoop probe rest (checked + 1)).2)
      | none => linkLoop probe rest (checked + 1)

/-- Python repr of one broken-list entry: a `(link, status)` or
`(link, error-message)` tuple as it appears inside the f-string. -/
def pyReprEntry : Str × (Nat ⊕ Str) → Str
  | (link, .inl code) => str "('" ++ link ++ str "', " ++ natToStr code ++ str ")"
  | (link, .inr e) => str "('" ++ link ++ str "', '" ++ e ++ str "')"

/-- Comma-separated rendering of the entries inside a Python list repr. -/
def pyReprInner : List (Str × (Nat ⊕ Str)) → Str
  | [] => []
  | [e] => pyReprEntry e
  | e :: rest => pyReprEntry e ++ str ", " ++ pyReprInner rest

/-- Python repr of the truncated broken-list sample `broken[:3]`. -/
def pyReprList (entries : List (Str × (Nat ⊕ Str))) : Str :=
  str "[" ++ pyReprInner entries ++ str "]"

/-- The failed broken_links record message (project.py line 200). -/
def brokenMsg (broken : List (Str × (Nat ⊕ Str))) : Str :=
  natToStr broken.length ++ str " broken or problematic links (sample: " ++
    pyReprList (broken.take 3) ++ str ")"

/-- check_internal_links from project.py lines 184-202, with link
discovery factored out: `links` is the discovered link set in iteration
order and `probe` the HTTP prober (`requests.head`).  Appends exactly
one broken_links record: failed with the count and the first-3 sample
when the broken list is non-empty, otherwise a pass. -/
def check_internal_links (links : List Str) (probe : Str → Except Str Nat) :
    List Record :=
  if (linkLoop probe links 0).1 = [] then
    [⟨str "broken_links", true, str "No broken links found (checked up to 20)"⟩]
  else
    [⟨str "broken_links", false, brokenMsg (linkLoop probe links 0).1⟩]

/-- A character may start a URL scheme when it is a letter
(urllib.parse's scheme recognition). -/
def startsWithAlpha : Str → Bool
  | [] => false
  | c :: _ => c.isAlpha

/-- A character allowed inside a URL scheme (urllib.parse's
`scheme_chars`): letters, digits, and `+`, `-`, `.`. -/
def isSchemeChar (c : Char) : Bool :=
  c.isAlphanum || c = '+' || c = '-' || c = '.'

/-- The scheme-splitting step of urllib.parse.urlsplit: a valid scheme
before the first ':' is removed and lowercased, otherwise the URL is
left whole with an empty scheme. -/
def schemeAndRest (url : Str) : Str × Str :=
  let pre := url.takeWhile fun c => !(c == ':')
  let post := url.dropWhile fun c => !(c == ':')
  match post with
  | [] => ([], url)
  | _ :: afterColon =>
    if startsWithAlpha pre && pre.all isSchemeChar then
      (pre.map Char.toLower, afterColon)
    else ([], url)

/-- The netloc extraction step of urllib.parse.urlsplit: present only
after a leading "//", extending to the next '/', '?' or '#'. -/
def rawNetloc (rest : Str) : Str :=
  if (str "//").isPrefixOf rest then
    (rest.drop 2).takeWhile fun c => !(c == '/' || c == '?' || c == '#')
  else []

/-- urlsplit's only eager validation: a '[' or ']' present in the netloc
without its partner raises `ValueError('Invalid IPv6 URL')`. -/
def bracketMismatch (nl : Str) : Bool := (nl.contains '[') != (nl.contains ']')

/-- urllib.parse.urlparse modelled on its scheme and netloc components:
either `(scheme, netloc)` or the raised ValueError's message. -/
def pyUrlparse (url : Str) : Except Str (Str × Str) :=
  if bracketMismatch (rawNetloc (schemeAndRest url).2) then
    .error (str "Invalid IPv6 URL")
  else .ok ((schemeAndRest url).1, rawNetloc (schemeAndRest url).2)

/-- SiteTester.same_domain from project.py lines 135-140: a URL is
same-domain when its netloc is empty or equals the session domain; any
raised parse error yields False. -/
def same_domain (domain url : Str) : Bool :=
  match pyUrlparse url with
  | .ok (_, nl) => nl = [] || nl = domain
  | .error _ => false

/-- The session data SiteTester.__init__ derives from its base URL
(project.py lines 103-107): the normalised base URL and the domain and
scheme urlparse extracts from it. -/
structure Session where
  base_url : Str
  domain : Str
  scheme : Str
deriving DecidableEq

/-- The URL-processing part of SiteTester.__init__ (project.py lines
103-111): normalise the raw base URL, parse it, and record base URL,
domain and scheme.  No validation is performed; the only way this can
abort is the ValueError urlparse itself raises.  (The subsequent
Selenium driver acquisition, lines 113-128, touches no URL data and is
out of scope of the URL contract.) -/
def siteTesterInit (base : Str) : Except Str Session :=
  match pyUrlparse (normalise base) with
  | .error e => .error e
  | .ok sn => .ok ⟨normalise base, sn.2, sn.1⟩

/-- Python str.strip(): remove leading and trailing whitespace. -/
def pyStrip (l : Str) : Str :=
  ((l.dropWhile Char.isWhitespace).reverse.dropWhile Char.isWhitespace).reverse

/-- The per-anchor body of discover_links (project.py lines 145-154):
strip the href, drop mailto:/tel: links, resolve against the base URL
(the urllib urljoin collaborator is passed in), drop javascript:
pseudo-URLs, strip any fragment, and keep the result only when it is
same-domain. -/
def linkOf (urljoin : Str → Str → Str) (domain base_url : Str)
    (href : Str) : Option Str :=
  if (str "mailto:").isPrefixOf (pyStrip href) ||
      (str "tel:").isPrefixOf (pyStrip href) then none
  else if (str "javascript:").isPrefixOf (urljoin base_url (pyStrip href)) then
    none
  else if same_domain domain
      ((urljoin base_url (pyStrip href)).takeWhile fun c => !(c == '#')) then
    some ((urljoin base_url (pyStrip href)).takeWhile fun c => !(c == '#'))
  else none

/-- discover_links from project.py lines 142-155: the set of kept links
over all anchors' href values (`hrefs` embeds the anchor elements the
HTML parser finds, in document order). -/
def discover_links (urljoin : Str → Str → Str) (domain : Str)
    (hrefs : List Str) (base_url : Str) : Finset Str :=
  (hrefs.filterMap (linkOf urljoin domain base_url)).toFinset

/-- The record-appending page checks present in the source, run in
order against one page: form detection, the broken-internal-links scan,
and safe click probing.  (The reachability and console checks return
values; the code recording them is in the crawl driver the source omits
"for brevity".) -/
def run_page_checks (forms : Nat) (links : List Str)
    (probe : Str → Except Str Nat) (buttons : List Button) : List Record :=
  fill_and_submit_forms forms ++ check_internal_links links probe ++
    safe_click_buttons buttons

/-- How many records in a list carry the given check name. -/
def countName (nm : Str) (rs : List Record) : Nat :=
  rs.countP fun r => decide (r.name = nm)

end AutoTester

namespace AutoTester

/-! Helper lemmas. -/

/-- Once the click counter has reached 3, the loop does nothing. -/
theorem clickLoop_sat (bs : List Button) (n : Nat) (h : 3 ≤ n) :
    clickLoop bs n = ([], n) := by
  cases bs with
  | nil => rfl
  | cons b rest => simp [clickLoop, h]

/-- The click counter never decreases. -/
theorem clickLoop_counter_mono (bs : List Button) (n : Nat) :
    n ≤ (clickLoop bs n).2 := by
  induction bs generalizing n with
  | nil => simp [clickLoop]
  | cons b rest ih =>
    by_cases h : 3 ≤ n
    · simp [clickLoop, h]
    · by_cases hs : is_safe_text (derivedText b) = true
      · cases hc : b.clickError with
        | none =>
          have := ih (n + 1)
          simp only [clickLoop, if_neg h, hs, if_true, hc]
          omega
        | some e =>
          have := ih n
          simp only [clickLoop, if_neg h, hs, if_true, hc]
          omega
      · have := ih n
        simp only [Bool.not_eq_true] at hs
        simp [clickLoop, h, hs]
        omega

/-- Starting at or below 3, the click counter stays at or below 3. -/
theorem clickLoop_counter_le (bs : List Button) (n : Nat) (h : n ≤ 3) :
    (clickLoop bs n).2 ≤ 3 := by
  induction bs generalizing n with
  | nil => simpa [clickLoop] using h
  | cons b rest ih =>
    by_cases h3 : 3 ≤ n
    · simp [clickLoop, h3, h]
    · by_cases hs : is_safe_text (derivedText b) = true
      · cases hc : b.clickError with
        | none =>
          have := ih (n + 1) (by omega)
          simpa only [clickLoop, if_neg h3, hs, if_true, hc] using this
        | some e =>
          have := ih n h
          simpa only [clickLoop, if_neg h3, hs, if_true, hc] using this
      · simp only [Bool.not_eq_true] at hs
        have := ih n h
        simpa [clickLoop, h3, hs] using this

/-- The click loop processes an appended list as the first part followed
by the second part started at the first part's final counter. -/
theorem clickLoop_append (xs ys : List Button) (n : Nat) :
    clickLoop (xs ++ ys) n =
      ((clickLoop xs n).1 ++ (clickLoop ys (clickLoop xs n).2).1,
       (clickLoop ys (clickLoop xs n).2).2) := by
  induction xs generalizing n with
  | nil => simp [clickLoop]
  | cons b rest ih =>
    by_cases h : 3 ≤ n
    · rw [show (b :: rest) ++ ys = b :: (rest ++ ys) from rfl,
         clickLoop_sat (b :: (rest ++ ys)) n h, clickLoop_sat (b :: rest) n h,
         clickLoop_sat ys n h]
      simp
    · by_cases hs : is_safe_text (derivedText b) = true
      · cases hc : b.clickError with
        | none =>
          simp [List.cons_append, clickLoop, h, hs, hc, ih]
        | some e =>
          simp [List.cons_append, clickLoop, h, hs, hc, ih]
      · simp only [Bool.not_eq_true] at hs
        simp [List.cons_append, clickLoop, h, hs, ih]

/-- Skipping: a blacklisted-text button contributes nothing to the loop. -/
theorem clickLoop_skip_head (b : Button) (rest : List Button) (n : Nat)
    (hb : is_safe_text (derivedText b) = false) :
    clickLoop (b :: rest) n = clickLoop rest n := by
  by_cases h : 3 ≤ n
  · rw [clickLoop_sat (b :: rest) n h, clickLoop_sat rest n h]
  · simp [clickLoop, h, hb]

/-- A list is a boolean prefix of itself followed by anything. -/
theorem prefixOf_append (l t : Str) : l.isPrefixOf (l ++ t) = true := by
  induction l with
  | nil => simp [List.isPrefixOf]
  | cons c cs ih => simp [List.isPrefixOf, ih]

/-- Every trace the click loop produces is well formed. -/
theorem clickLoop_wellFormed (bs : List Button) (n : Nat) :
    wellFormedTrace (clickLoop bs n).1 = true := by
  induction bs generalizing n with
  | nil => rfl
  | cons b rest ih =>
    by_cases h : 3 ≤ n
    · rw [clickLoop_sat (b :: rest) n h]; rfl
    · by_cases hs : is_safe_text (derivedText b) = true
      · cases hc : b.clickError with
        | none =>
          simp [clickLoop, h, hs, hc, wellFormedTrace, ih]
        | some e =>
          simp [clickLoop, h, hs, hc, wellFormedTrace, ih, couldNotClickMsg,
            prefixOf_append]
      · simp only [Bool.not_eq_true] at hs
        rw [clickLoop_skip_head b rest n hs]
        exact ih n

/-- Every record the click loop appends carries an indexed name
`button_click_<k>` with an index at least the starting counter. -/
theorem clickLoop_record_names (bs : List Button) (n : Nat) :
    ∀ r ∈ recordsOf (clickLoop bs n).1, ∃ k, n ≤ k ∧ r.name = mkClickName k := by
  induction bs generalizing n with
  | nil => intro r hr; simp [clickLoop, recordsOf] at hr
  | cons b rest ih =>
    by_cases h : 3 ≤ n
    · rw [clickLoop_sat (b :: rest) n h]; intro r hr; simp [recordsOf] at hr
    · by_cases hs : is_safe_text (derivedText b) = true
      · cases hc : b.clickError with
        | none =>
          intro r hr
          simp [clickLoop, h, hs, hc, recordsOf] at hr
          rcases hr with hr | hr
          · exact ⟨n, le_refl n, by rw [hr]⟩
          · rcases ih (n + 1) r (by simpa [recordsOf] using hr) with ⟨k, hk, he⟩
            exact ⟨k, by omega, he⟩
        | some e =>
          intro r hr
          simp [clickLoop, h, hs, hc, recordsOf] at hr
          rcases hr with hr | hr
          · exact ⟨n, le_refl n, by rw [hr]⟩
          · exact ih n r (by simpa [recordsOf] using hr)
      · simp only [Bool.not_eq_true] at hs
        rw [clickLoop_skip_head b rest n hs]
        exact ih n

/-- Every indexed click name starts with the fixed `button_click_` stem. -/
theorem mkClickName_stem (k : Nat) :
    (str "button_click_").isPrefixOf (mkClickName k) = true :=
  prefixOf_append (str "button_click_") (natToStr k)

/-- No indexed click name equals the summary name `button_clicks`. -/
theorem mkClickName_ne_button_clicks (k : Nat) :
    mkClickName k ≠ str "button_clicks" := by
  intro hEq
  have h12 : (some '_' : Option Char) = some 's' := by
    rw [show (some '_' : Option Char) = (mkClickName k).get? 12 from rfl, hEq]
    rfl
  exact absurd h12 (by decide)

/-- No indexed click name equals `forms_detected`. -/
theorem mkClickName_ne_forms (k : Nat) :
    mkClickName k ≠ str "forms_detected" := by
  intro hEq
  have h0 : (some 'b' : Option Char) = some 'f' := by
    rw [show (some 'b' : Option Char) = (mkClickName k).get? 0 from rfl, hEq]
    rfl
  exact absurd h0 (by decide)

/-- No indexed click name equals `broken_links`. -/
theorem mkClickName_ne_broken (k : Nat) :
    mkClickName k ≠ str "broken_links" := by
  intro hEq
  have h1 : (some 'u' : Option Char) = some 'r' := by
    rw [show (some 'u' : Option Char) = (mkClickName k).get? 1 from rfl, hEq]
    rfl
  exact absurd h1 (by decide)

/-- Record events contribute their record to recordsOf. -/
theorem recordsOf_record_cons (r : Record) (evs : List Ev) :
    recordsOf (Ev.record r :: evs) = r :: recordsOf evs := rfl

/-- Click-attempt events contribute nothing to recordsOf. -/
theorem recordsOf_clickAttempt_cons (t : Str) (evs : List Ev) :
    recordsOf (Ev.clickAttempt t :: evs) = recordsOf evs := rfl

/-- Sleep events contribute nothing to recordsOf. -/
theorem recordsOf_sleep_cons (s : Nat) (evs : List Ev) :
    recordsOf (Ev.sleep s :: evs) = recordsOf evs := rfl

/-- Back events contribute nothing to recordsOf. -/
theorem recordsOf_back_cons (evs : List Ev) :
    recordsOf (Ev.back :: evs) = recordsOf evs := rfl

/-- The names of the passed indexed click records are exactly the
indexed names from the starting counter up to the final counter. -/
theorem clickLoop_passNames (bs : List Button) (n : Nat) :
    ((recordsOf (clickLoop bs n).1).filter fun r =>
        r.passed && (str "button_click_").isPrefixOf r.name).map Record.name =
      (List.range' n ((clickLoop bs n).2 - n)).map mkClickName := by
  induction bs generalizing n with
  | nil => simp [clickLoop, recordsOf]
  | cons b rest ih =>
    by_cases h : 3 ≤ n
    · rw [clickLoop_sat (b :: rest) n h]; simp [recordsOf]
    · by_cases hs : is_safe_text (derivedText b) = true
      · cases hc : b.clickError with
        | none =>
          have hmono := clickLoop_counter_mono rest (n + 1)
          have hX : (clickLoop rest (n + 1)).2 - n =
              ((clickLoop rest (n + 1)).2 - (n + 1)) + 1 := by omega
          simp only [clickLoop, if_neg h, hs, if_true, hc]
          simp only [recordsOf_clickAttempt_cons, recordsOf_sleep_cons,
            recordsOf_record_cons, recordsOf_back_cons]
          simp only [List.filter_cons, mkClickName_stem, Bool.and_true,
            List.map_cons]
          rw [hX, List.range'_succ, List.map_cons]
          simp only [if_pos trivial, List.map_cons]
          rw [ih (n + 1)]
        | some e =>
          simp only [clickLoop, if_neg h, hs, if_true, hc]
          simp only [recordsOf_clickAttempt_cons, recordsOf_sleep_cons,
            recordsOf_record_cons, recordsOf_back_cons]
          simp only [List.filter_cons, Bool.false_and]
          simpa using ih n
      · simp only [Bool.not_eq_true] at hs
        rw [clickLoop_skip_head b rest n hs]
        exact ih n

/-- No record the click loop appends carries a name different from all
indexed click names. -/
theorem clickLoop_countName_zero (bs : List Button) (n : Nat) (nm : Str)
    (hne : ∀ k, mkClickName k ≠ nm) :
    countName nm (recordsOf (clickLoop bs n).1) = 0 := by
  unfold countName
  rw [List.countP_eq_zero]
  intro r hr
  rcases clickLoop_record_names bs n r hr with ⟨k, _, hk⟩
  simp [hk, hne k]

/-- The probing loop checks exactly the first `20 - c` links and counts
every one of them. -/
theorem linkLoop_eq (probe : Str → Except Str Nat) (ls : List Str) (c : Nat) :
    linkLoop probe ls c =
      ((ls.take (20 - c)).filterMap (brokenOf probe),
       c + min ls.length (20 - c)) := by
  induction ls generalizing c with
  | nil => simp [linkLoop]
  | cons l rest ih =>
    by_cases h : 20 ≤ c
    · have h20 : 20 - c = 0 := by omega
      simp [linkLoop, h, h20]
    · have h20 : 20 - c = (20 - (c + 1)) + 1 := by omega
      rw [h20]
      cases hb : brokenOf probe l with
      | some entry =>
        simp only [linkLoop, if_neg h, hb, ih (c + 1), List.take_succ_cons,
          List.filterMap_cons, List.length_cons, Prod.mk.injEq]
        refine ⟨trivial, ?_⟩
        omega
      | none =>
        simp only [linkLoop, if_neg h, hb, ih (c + 1), List.take_succ_cons,
          List.filterMap_cons, List.length_cons, Prod.mk.injEq]
        refine ⟨trivial, ?_⟩
        omega

/-- An infix stays an infix after extending the list on the right. -/
theorem infix_ext_right {l m : Str} (t : Str) (h : l <:+: m) : l <:+: m ++ t := by
  rcases h with ⟨u, v, rfl⟩
  exact ⟨u, v ++ t, by simp⟩

/-- An infix stays an infix after extending the list on the left. -/
theorem infix_ext_left {l m : Str} (s : Str) (h : l <:+: m) : l <:+: s ++ m := by
  rcases h with ⟨u, v, rfl⟩
  exact ⟨s ++ u, v, by simp⟩

/-- A broken entry's link occurs inside that entry's rendering. -/
theorem link_infix_pyReprEntry (p : Str × (Nat ⊕ Str)) :
    p.1 <:+: pyReprEntry p := by
  rcases p with ⟨link, code | e⟩
  · exact ⟨str "('", str "', " ++ natToStr code ++ str ")",
      by simp [pyReprEntry, List.append_assoc]⟩
  · exact ⟨str "('", str "', '" ++ e ++ str "')",
      by simp [pyReprEntry, List.append_assoc]⟩

/-- An entry's rendering occurs inside the rendering of any entry list
containing it. -/
theorem entry_infix_pyReprInner {p : Str × (Nat ⊕ Str)}
    {entries : List (Str × (Nat ⊕ Str))} (hm : p ∈ entries) :
    pyReprEntry p <:+: pyReprInner entries := by
  induction entries with
  | nil => cases hm
  | cons e rest ih =>
    cases rest with
    | nil =>
      rcases List.mem_cons.mp hm with rfl | hm2
      · exact ⟨[], [], by simp [pyReprInner]⟩
      · cases hm2
    | cons e2 rest2 =>
      rcases List.mem_cons.mp hm with rfl | hm2
      · exact ⟨[], str ", " ++ pyReprInner (e2 :: rest2),
          by simp [pyReprInner, List.append_assoc]⟩
      · show pyReprEntry p <:+:
          (pyReprEntry e ++ str ", ") ++ pyReprInner (e2 :: rest2)
        exact infix_ext_left _ (ih hm2)

/-- Any link of the first-3 broken sample occurs inside the failed
broken_links message. -/
theorem link_infix_brokenMsg {p : Str × (Nat ⊕ Str)}
    {broken : List (Str × (Nat ⊕ Str))} (hm : p ∈ broken.take 3) :
    p.1 <:+: brokenMsg broken := by
  have h1 : p.1 <:+: pyReprInner (broken.take 3) :=
    (link_infix_pyReprEntry p).trans (entry_infix_pyReprInner hm)
  have h2 : p.1 <:+: pyReprList (broken.take 3) := by
    unfold pyReprList
    exact infix_ext_right _ (infix_ext_left _ h1)
  show p.1 <:+:
    (natToStr broken.length ++
      str " broken or problematic links (sample: ") ++
        pyReprList (broken.take 3) ++ str ")"
  exact infix_ext_right _ (infix_ext_left _ h2)

/-- The broken count opens the failed broken_links message. -/
theorem count_prefix_brokenMsg (broken : List (Str × (Nat ⊕ Str))) :
    natToStr broken.length <+: brokenMsg broken :=
  ⟨str " broken or problematic links (sample: " ++
     pyReprList (broken.take 3) ++ str ")",
   by simp [brokenMsg, List.append_assoc]⟩

/-! Claim theorems. -/

/-- C8: normalise is idempotent: for every input string u,
normalise (normalise u) equals normalise u. -/
theorem normalise_idem (u : Str) : normalise (normalise u) = normalise u := by
  unfold normalise
  by_cases h : (str "http").isPrefixOf u = true
  · simp [h]
  · simp only [h, if_neg, Bool.not_eq_true] at *
    simp [str, List.isPrefixOf]

/-- C4: the reachability check returns a status code (a pass) whenever
the probe obtains any status code, regardless of its value (including
4xx/5xx), and returns no status code together with the error message
exactly when the probe raises a transport-level error. -/
theorem http_status_check_spec :
    (∀ code : Nat, http_status_check (Except.ok code) = (some code, str "")) ∧
    (∀ e : Str, http_status_check (Except.error e) = (none, e)) ∧
    (∀ r : Except Str Nat, (http_status_check r).1.isSome = r.toBool) := by
  refine ⟨fun code => rfl, fun e => rfl, fun r => ?_⟩
  cases r <;> rfl

/-- C1: a check body that raises staleness on the first two attempts
and succeeds on the third yields that success after exactly 3 calls to
the body (with a 1-second pause after each staleness failure), exactly
as Scenario D states; but a body that raises staleness on all three
attempts makes the wrapper propagate `RuntimeError: No active exception
to re-raise` — the bare `raise` on project.py line 80 sits outside the
`except` handler — rather than the staleness failure the claim says is
propagated to the caller. -/
theorem retry_on_stale_eval :
    retry_on_stale (fun i => if i < 2 then .stale else AttemptResult.ok 42) =
      (Except.ok 42, 3, 2) ∧
    retry_on_stale (fun _ => (AttemptResult.stale : AttemptResult Nat)) =
      (Except.error PyError.runtimeNoActive, 3, 3) :=
  ⟨rfl, rfl⟩

/-- C3: a button whose derived text fails the blacklist check (in
particular one labeled "Logout Now" against the pattern logout, which is
in the configured blacklist) contributes nothing to the click loop: it
is never clicked, no record is appended for it, and the loop proceeds
exactly as if the button were absent. -/
theorem safe_click_skips_blacklisted :
    (∀ (pre post : List Button) (b : Button) (n : Nat),
        is_safe_text (derivedText b) = false →
        clickLoop (pre ++ b :: post) n = clickLoop (pre ++ post) n) ∧
    is_safe_text (str "Logout Now") = false ∧
    str "logout" ∈ SAFE_CLICK_BLACKLIST := by
  refine ⟨?_, by decide, by decide⟩
  intro pre post b n hb
  rw [clickLoop_append pre (b :: post) n, clickLoop_append pre post n,
    clickLoop_skip_head b post _ hb]

/-- Witness for C3 at the concrete "Logout Now" button. -/
theorem safe_click_skips_blacklisted_witness :
    clickLoop ([] ++ (⟨str "Logout Now", none, none⟩ : Button) :: []) 0 =
      clickLoop ([] ++ []) 0 :=
  safe_click_skips_blacklisted.1 [] [] ⟨str "Logout Now", none, none⟩ 0
    (by decide)

/-- C10: an element whose derived text is empty (no visible text and no
aria-label) is treated as safe by the safe-text predicate, and such an
unlabeled button is eligible for clicking: at the head of the button
list it is clicked and a pass record is appended for it. -/
theorem empty_text_is_safe :
    (∀ t : Str, t = [] → is_safe_text t = true) ∧
    (∀ (b : Button) (rest : List Button), derivedText b = [] →
        b.clickError = none →
        Ev.clickAttempt (derivedText b) ∈ (clickLoop (b :: rest) 0).1 ∧
        (⟨mkClickName 0, true, clickedMsg (derivedText b)⟩ : Record) ∈
          recordsOf (clickLoop (b :: rest) 0).1) := by
  constructor
  · intro t ht
    rw [ht]
    rfl
  · intro b rest hd hc
    have hsafe : is_safe_text (derivedText b) = true := by
      rw [hd]
      rfl
    constructor
    · simp [clickLoop, hsafe, hc]
    · simp [clickLoop, hsafe, hc, recordsOf_record_cons,
        recordsOf_clickAttempt_cons, recordsOf_sleep_cons]

/-- Witness for C10 at a concrete unlabeled button. -/
theorem empty_text_is_safe_witness :
    is_safe_text ([] : Str) = true ∧
    (Ev.clickAttempt (derivedText ⟨[], none, none⟩) ∈
        (clickLoop [(⟨[], none, none⟩ : Button)] 0).1 ∧
      (⟨mkClickName 0, true, clickedMsg (derivedText ⟨[], none, none⟩)⟩ :
          Record) ∈
        recordsOf (clickLoop [(⟨[], none, none⟩ : Button)] 0).1) :=
  ⟨empty_text_is_safe.1 [] rfl, empty_text_is_safe.2 ⟨[], none, none⟩ [] rfl rfl⟩

/-- C9: safe-click probing clicks at most 3 elements; its trace is a
sequence of complete per-candidate blocks (click, 1s pause, pass record
naming the element's text, navigate back, pause — or click, failed
record naming the element's text); a failing click leaves the click
counter unchanged and the remaining candidates are processed exactly as
if the failing button were absent, with the failure recorded under the
current index for that element; and when zero elements were clicked,
exactly one summary pass record named button_clicks is appended. -/
theorem safe_click_buttons_spec :
    (∀ bs : List Button, (clickLoop bs 0).2 ≤ 3) ∧
    (∀ (bs : List Button) (n : Nat), wellFormedTrace (clickLoop bs n).1 = true) ∧
    (∀ (pre post : List Button) (b : Button) (n : Nat) (e : Str),
        is_safe_text (derivedText b) = true → b.clickError = some e →
        (clickLoop (pre ++ b :: post) n).2 = (clickLoop (pre ++ post) n).2 ∧
        ((clickLoop pre n).2 < 3 →
          (⟨mkClickName (clickLoop pre n).2, false,
              couldNotClickMsg (derivedText b) e⟩ : Record) ∈
            recordsOf (clickLoop (pre ++ b :: post) n).1)) ∧
    (∀ bs : List Button, (clickLoop bs 0).2 = 0 →
        safe_click_buttons bs =
          recordsOf (clickLoop bs 0).1 ++ [noClickSummary] ∧
        countName (str "button_clicks") (safe_click_buttons bs) = 1) := by
  refine ⟨fun bs => clickLoop_counter_le bs 0 (by omega),
    fun bs n => clickLoop_wellFormed bs n, ?_, ?_⟩
  · intro pre post b n e hsafe herr
    rw [clickLoop_append pre (b :: post) n, clickLoop_append pre post n]
    by_cases hm : 3 ≤ (clickLoop pre n).2
    · rw [clickLoop_sat (b :: post) _ hm, clickLoop_sat post _ hm]
      exact ⟨rfl, fun hlt => absurd hm (by omega)⟩
    · constructor
      · simp [clickLoop, hm, hsafe, herr]
      · intro _
        simp only [clickLoop, if_neg hm, hsafe, if_true, herr]
        simp [recordsOf, List.filterMap_append]
  · intro bs h0
    have hrw : safe_click_buttons bs =
        recordsOf (clickLoop bs 0).1 ++ [noClickSummary] := by
      simp [safe_click_buttons, h0]
    refine ⟨hrw, ?_⟩
    rw [hrw]
    unfold countName
    rw [List.countP_append]
    have hz := clickLoop_countName_zero bs 0 (str "button_clicks")
      mkClickName_ne_button_clicks
    unfold countName at hz
    rw [hz]
    rfl

/-- Witness for C9 at a concrete failing-click button. -/
theorem safe_click_buttons_spec_witness :
    ((clickLoop ([] ++ (⟨str "A", none, some (str "x")⟩ : Button) :: []) 0).2 =
        (clickLoop ([] ++ ([] : List Button)) 0).2 ∧
      (⟨mkClickName (clickLoop ([] : List Button) 0).2, false,
          couldNotClickMsg (derivedText ⟨str "A", none, some (str "x")⟩)
            (str "x")⟩ : Record) ∈
        recordsOf
          (clickLoop ([] ++ (⟨str "A", none, some (str "x")⟩ : Button) :: [])
            0).1) ∧
    (safe_click_buttons [(⟨str "A", none, some (str "x")⟩ : Button)] =
        recordsOf (clickLoop [(⟨str "A", none, some (str "x")⟩ : Button)] 0).1 ++
          [noClickSummary] ∧
      countName (str "button_clicks")
        (safe_click_buttons [(⟨str "A", none, some (str "x")⟩ : Button)]) = 1) := by
  have h1 := safe_click_buttons_spec.2.2.1 [] []
    ⟨str "A", none, some (str "x")⟩ 0 (str "x") (by decide) rfl
  exact ⟨⟨h1.1, h1.2 (by decide)⟩,
    safe_click_buttons_spec.2.2.2 [⟨str "A", none, some (str "x")⟩] (by decide)⟩

/-- C2: the broken-link check probes at most 20 discovered links, its
outcome depends only on the first 20 links, it appends exactly one
record named broken_links, that record passes exactly when none of the
probed links is broken (status 400 or more, or a raised transport
error), and a failed record's message contains the broken count and
every link of the first-3 broken sample. -/
theorem check_internal_links_spec (links : List Str)
    (probe : Str → Except Str Nat) :
    (linkLoop probe links 0).2 ≤ 20 ∧
    check_internal_links links probe =
      check_internal_links (links.take 20) probe ∧
    (check_internal_links links probe).map Record.name = [str "broken_links"] ∧
    ((check_internal_links links probe).map Record.passed = [true] ↔
      ∀ l ∈ links.take 20, brokenOf probe l = none) ∧
    (∀ r : Record, (check_internal_links links probe).head? = some r →
      r.passed = false →
      natToStr (linkLoop probe links 0).1.length <+: r.message ∧
      ((linkLoop probe links 0).1.take 3).all
        (fun p => decide (p.1 <:+: r.message)) = true) := by
  have hloop := linkLoop_eq probe links 0
  have hbroken : (linkLoop probe links 0).1 =
      (links.take 20).filterMap (brokenOf probe) := by
    rw [hloop]
  refine ⟨?_, ?_, ?_, ?_, ?_⟩
  · rw [hloop]
    simp
  · have htake : (linkLoop probe (links.take 20) 0).1 =
        (linkLoop probe links 0).1 := by
      rw [linkLoop_eq probe (links.take 20) 0, hbroken]
      simp [List.take_take]
    unfold check_internal_links
    rw [htake]
  · by_cases hB : (linkLoop probe links 0).1 = [] <;>
      simp [check_internal_links, hB]
  · by_cases hB : (linkLoop probe links 0).1 = []
    · rw [hbroken] at hB
      simp only [check_internal_links, hbroken, hB, if_pos]
      simp only [List.map_cons, List.map_nil, true_iff]
      exact List.filterMap_eq_nil_iff.mp hB
    · rw [hbroken] at hB
      simp only [check_internal_links, hbroken, hB, if_neg, if_false]
      simp only [List.map_cons, List.map_nil]
      constructor
      · intro hcontra
        exact absurd (List.cons.injEq .. ▸ hcontra) (by simp)
      · intro hall
        exact absurd (List.filterMap_eq_nil_iff.mpr hall) hB
  · intro r hr hp
    by_cases hB : (linkLoop probe links 0).1 = []
    · simp only [check_internal_links, hB, if_pos] at hr
      simp only [List.head?_cons, Option.some.injEq] at hr
      rw [← hr] at hp
      exact absurd hp (by simp)
    · simp only [check_internal_links, hB, if_neg, if_false] at hr
      simp only [List.head?_cons, Option.some.injEq] at hr
      rw [← hr]
      refine ⟨count_prefix_brokenMsg _, ?_⟩
      rw [List.all_eq_true]
      intro p hpmem
      simpa using link_infix_brokenMsg hpmem

/-- Witness for C2 at one link whose probe raises a transport error. -/
theorem check_internal_links_spec_witness :
    natToStr
        (linkLoop (fun _ => Except.error (str "boom")) [str "u1"] 0).1.length <+:
      (Record.mk (str "broken_links") false
        (str "1 broken or problematic links (sample: [('u1', 'boom')])")).message ∧
    ((linkLoop (fun _ => Except.error (str "boom")) [str "u1"] 0).1.take 3).all
      (fun p => decide (p.1 <:+:
        (Record.mk (str "broken_links") false
          (str
            "1 broken or problematic links (sample: [('u1', 'boom')])")).message)) =
      true :=
  (check_internal_links_spec [str "u1"]
      (fun _ => Except.error (str "boom"))).2.2.2.2
    ⟨str "broken_links", false,
      str "1 broken or problematic links (sample: [('u1', 'boom')])"⟩
    (by decide) rfl

/-- countName adds over concatenation. -/
theorem countName_append (nm : Str) (xs ys : List Record) :
    countName nm (xs ++ ys) = countName nm xs + countName nm ys := by
  simp [countName, List.countP_append]

/-- countName of a single record with the looked-up name. -/
theorem countName_singleton_eq (nm : Str) (passed : Bool) (msg : Str) :
    countName nm [⟨nm, passed, msg⟩] = 1 := by
  simp [countName]

/-- countName of a single record with a different name. -/
theorem countName_singleton_ne {nm nm2 : Str} (h : nm2 ≠ nm) (passed : Bool)
    (msg : Str) : countName nm [⟨nm2, passed, msg⟩] = 0 := by
  simp [countName, h]

/-- The forms check appends one record, named forms_detected. -/
theorem countName_forms (nm : Str) (forms : Nat) :
    countName nm (fill_and_submit_forms forms) =
      if (str "forms_detected" : Str) = nm then 1 else 0 := by
  by_cases hnm : (str "forms_detected" : Str) = nm
  · subst hnm
    by_cases hf : forms = 0 <;>
      simp [fill_and_submit_forms, hf, countName_singleton_eq]
  · rw [if_neg hnm]
    by_cases hf : forms = 0 <;>
      simp [fill_and_submit_forms, hf, countName_singleton_ne hnm]

/-- The broken-links check appends one record, named broken_links. -/
theorem countName_links (nm : Str) (links : List Str)
    (probe : Str → Except Str Nat) :
    countName nm (check_internal_links links probe) =
      if (str "broken_links" : Str) = nm then 1 else 0 := by
  by_cases hnm : (str "broken_links" : Str) = nm
  · subst hnm
    by_cases hb : (linkLoop probe links 0).1 = [] <;>
      simp [check_internal_links, hb, countName_singleton_eq]
  · rw [if_neg hnm]
    by_cases hb : (linkLoop probe links 0).1 = [] <;>
      simp [check_internal_links, hb, countName_singleton_ne hnm]

/-- Safe-click probing appends no record with a non-click name. -/
theorem countName_safe_click_zero (nm : Str) (bs : List Button)
    (hne : ∀ k, mkClickName k ≠ nm) (hsum : (str "button_clicks" : Str) ≠ nm) :
    countName nm (safe_click_buttons bs) = 0 := by
  unfold safe_click_buttons
  by_cases h0 : (clickLoop bs 0).2 = 0
  · rw [if_pos h0, countName_append, clickLoop_countName_zero bs 0 nm hne]
    simp [noClickSummary, countName_singleton_ne hsum]
  · rw [if_neg h0]
    exact clickLoop_countName_zero bs 0 nm hne

/-- C6 counterexample: two safe buttons whose clicks both raise produce
two records that share the indexed name `button_click_0` (the counter
only advances on success), so the indexed per-button click records are
not pairwise distinct by suffix index. -/
theorem duplicate_click_record_names :
    countName (mkClickName 0)
      (run_page_checks 0 [] (fun _ => Except.ok 200)
        [⟨str "A", none, some (str "x")⟩,
         ⟨str "B", none, some (str "y")⟩]) = 2 := by
  decide

/-- C6 amended: in one completed run of the record-appending page
checks, each non-indexed check name (forms_detected, broken_links,
button_clicks) appears at most once, and the successful indexed click
records carry the names `button_click_0 .. button_click_(k-1)` for the
k-click run — pairwise distinct indices; only failed click records can
repeat an index, since the counter they use advances only on success. -/
theorem page_checks_record_names (forms : Nat) (links : List Str)
    (probe : Str → Except Str Nat) (buttons : List Button) :
    countName (str "forms_detected")
        (run_page_checks forms links probe buttons) = 1 ∧
    countName (str "broken_links")
        (run_page_checks forms links probe buttons) = 1 ∧
    countName (str "button_clicks")
        (run_page_checks forms links probe buttons) ≤ 1 ∧
    ((run_page_checks forms links probe buttons).filter fun r =>
        r.passed && (str "button_click_").isPrefixOf r.name).map Record.name =
      (List.range' 0 (clickLoop buttons 0).2).map mkClickName ∧
    (List.range' 0 (clickLoop buttons 0).2).Nodup := by
  have hforms_ne_broken : (str "broken_links" : Str) ≠ str "forms_detected" := by
    decide
  have hbroken_ne_forms : (str "forms_detected" : Str) ≠ str "broken_links" := by
    decide
  have hsum_ne_forms : (str "button_clicks" : Str) ≠ str "forms_detected" := by
    decide
  have hsum_ne_broken : (str "button_clicks" : Str) ≠ str "broken_links" := by
    decide
  have hforms_ne_sum : (str "forms_detected" : Str) ≠ str "button_clicks" := by
    decide
  have hbroken_ne_sum : (str "broken_links" : Str) ≠ str "button_clicks" := by
    decide
  refine ⟨?_, ?_, ?_, ?_, List.nodup_range' ..⟩
  · unfold run_page_checks
    rw [countName_append, countName_append, countName_forms, countName_links,
      countName_safe_click_zero _ _ mkClickName_ne_forms hsum_ne_forms]
    simp [hforms_ne_broken]
  · unfold run_page_checks
    rw [countName_append, countName_append, countName_forms, countName_links,
      countName_safe_click_zero _ _ mkClickName_ne_broken hsum_ne_broken]
    simp [hbroken_ne_forms]
  · unfold run_page_checks
    rw [countName_append, countName_append, countName_forms, countName_links]
    simp only [if_neg hforms_ne_sum, if_neg hbroken_ne_sum]
    unfold safe_click_buttons
    by_cases h0 : (clickLoop buttons 0).2 = 0
    · rw [if_pos h0, countName_append,
        clickLoop_countName_zero buttons 0 _ mkClickName_ne_button_clicks]
      simp [noClickSummary, countName_singleton_eq]
    · rw [if_neg h0,
        clickLoop_countName_zero buttons 0 _ mkClickName_ne_button_clicks]
      omega
  · have hpf : (str "button_click_").isPrefixOf (str "forms_detected") =
        false := by decide
    have hpb : (str "button_click_").isPrefixOf (str "broken_links") =
        false := by decide
    have hps : (str "button_click_").isPrefixOf (str "button_clicks") =
        false := by decide
    have hA : ((fill_and_submit_forms forms).filter fun r =>
        r.passed && (str "button_click_").isPrefixOf r.name) = [] := by
      by_cases hf : forms = 0 <;>
        simp [fill_and_submit_forms, hf, List.filter_cons, hpf]
    have hB : ((check_internal_links links probe).filter fun r =>
        r.passed && (str "button_click_").isPrefixOf r.name) = [] := by
      by_cases hb : (linkLoop probe links 0).1 = [] <;>
        simp [check_internal_links, hb, List.filter_cons, hpb]
    have hC : (((safe_click_buttons buttons).filter fun r =>
        r.passed && (str "button_click_").isPrefixOf r.name).map Record.name) =
        (List.range' 0 (clickLoop buttons 0).2).map mkClickName := by
      have hpass := clickLoop_passNames buttons 0
      rw [Nat.sub_zero] at hpass
      unfold safe_click_buttons
      by_cases h0 : (clickLoop buttons 0).2 = 0
      · rw [if_pos h0, List.filter_append]
        have hsumf : (([noClickSummary] : List Record).filter fun r =>
            r.passed && (str "button_click_").isPrefixOf r.name) = [] := by
          simp [noClickSummary, List.filter_cons, hps]
        rw [hsumf, List.append_nil]
        exact hpass
      · rw [if_neg h0]
        exact hpass
    unfold run_page_checks
    rw [List.filter_append, List.filter_append, hA, hB]
    simpa using hC

/-- C5 counterexample: the malformed base URL "not a url" does not
abort session setup: SiteTester construction succeeds and produces a
session whose base URL is the nonsense string "http://not a url" (with
domain "not a url"), exactly as CPython's urlparse accepts it. -/
theorem siteTesterInit_accepts_malformed :
    siteTesterInit (str "not a url") =
      Except.ok ⟨str "http://not a url", str "not a url", str "http"⟩ := rfl

/-- C5 amended: session setup performs no base-URL validation: it
aborts only when urlparse itself raises (a bracket-mismatched netloc,
`ValueError: Invalid IPv6 URL`); for every other input — malformed or
not — construction succeeds and the session records the normalised
input as its base URL together with whatever domain and scheme urlparse
extracts. -/
theorem siteTesterInit_no_validation (u : Str) :
    (siteTesterInit u).isOk =
      !bracketMismatch (rawNetloc (schemeAndRest (normalise u)).2) ∧
    (∀ s : Session, siteTesterInit u = Except.ok s →
      s = ⟨normalise u, rawNetloc (schemeAndRest (normalise u)).2,
           (schemeAndRest (normalise u)).1⟩) := by
  by_cases hbm : bracketMismatch (rawNetloc (schemeAndRest (normalise u)).2) =
      true
  · have hinit : siteTesterInit u = Except.error (str "Invalid IPv6 URL") := by
      unfold siteTesterInit pyUrlparse
      rw [hbm]
      rfl
    rw [hinit, hbm]
    exact ⟨rfl, fun s hs => Except.noConfusion hs⟩
  · simp only [Bool.not_eq_true] at hbm
    have hinit : siteTesterInit u = Except.ok
        ⟨normalise u, rawNetloc (schemeAndRest (normalise u)).2,
         (schemeAndRest (normalise u)).1⟩ := by
      unfold siteTesterInit pyUrlparse
      rw [hbm]
      rfl
    rw [hinit, hbm]
    refine ⟨rfl, ?_⟩
    intro s hs
    simp only [Except.ok.injEq] at hs
    exact hs.symm

/-- Witness for C5's amended claim at the malformed input. -/
theorem siteTesterInit_no_validation_witness :
    ((siteTesterInit (str "not a url")).isOk =
      !bracketMismatch
        (rawNetloc (schemeAndRest (normalise (str "not a url"))).2)) ∧
    (⟨str "http://not a url", str "not a url", str "http"⟩ : Session) =
      ⟨normalise (str "not a url"),
       rawNetloc (schemeAndRest (normalise (str "not a url"))).2,
       (schemeAndRest (normalise (str "not a url"))).1⟩ :=
  ⟨(siteTesterInit_no_validation (str "not a url")).1,
   (siteTesterInit_no_validation (str "not a url")).2
     ⟨str "http://not a url", str "not a url", str "http"⟩ rfl⟩

/-- C7: every link returned by link discovery passes the same-domain
matcher and carries no fragment; an anchor whose stripped href starts
with mailto: or tel:, or which resolves to a javascript: pseudo-URL,
contributes nothing; and the result is a set, so duplicated anchors
collapse. -/
theorem discover_links_spec (urljoin : Str → Str → Str) (domain : Str)
    (hrefs : List Str) (base_url : Str) :
    (∀ u ∈ discover_links urljoin domain hrefs base_url,
        same_domain domain u = true ∧ '#' ∉ u) ∧
    (∀ h : Str, ((str "mailto:").isPrefixOf (pyStrip h) ||
          (str "tel:").isPrefixOf (pyStrip h)) = true →
        discover_links urljoin domain (h :: hrefs) base_url =
          discover_links urljoin domain hrefs base_url) ∧
    (∀ h : Str,
        (str "javascript:").isPrefixOf (urljoin base_url (pyStrip h)) = true →
        discover_links urljoin domain (h :: hrefs) base_url =
          discover_links urljoin domain hrefs base_url) ∧
    discover_links urljoin domain (hrefs ++ hrefs) base_url =
      discover_links urljoin domain hrefs base_url := by
  refine ⟨?_, ?_, ?_, ?_⟩
  · intro u hu
    simp only [discover_links, List.mem_toFinset] at hu
    rcases List.mem_filterMap.mp hu with ⟨href, _, hsome⟩
    unfold linkOf at hsome
    split_ifs at hsome with h1 h2 h3
    have hXu := Option.some.inj hsome
    subst hXu
    refine ⟨h3, ?_⟩
    intro hmem
    have hp := List.mem_takeWhile_imp hmem
    simp at hp
  · intro h hcond
    have hnone : linkOf urljoin domain base_url h = none := by
      simp [linkOf, hcond]
    simp [discover_links, List.filterMap_cons, hnone]
  · intro h hcond
    have hnone : linkOf urljoin domain base_url h = none := by
      by_cases h1 : ((str "mailto:").isPrefixOf (pyStrip h) ||
          (str "tel:").isPrefixOf (pyStrip h)) = true
      · simp [linkOf, h1]
      · simp only [Bool.not_eq_true] at h1
        simp [linkOf, h1, hcond]
    simp [discover_links, List.filterMap_cons, hnone]
  · simp [discover_links, List.filterMap_append]

/-- Witness for C7 at a concrete fragment-bearing same-domain anchor
and a concrete mailto anchor. -/
theorem discover_links_spec_witness :
    (same_domain (str "ex.com") (str "http://ex.com/a") = true ∧
      '#' ∉ str "http://ex.com/a") ∧
    discover_links (fun _ h => h) (str "ex.com")
        (str "mailto:x@y" :: [str "http://ex.com/a#f"]) (str "b") =
      discover_links (fun _ h => h) (str "ex.com")
        [str "http://ex.com/a#f"] (str "b") :=
  ⟨(discover_links_spec (fun _ h => h) (str "ex.com")
      [str "http://ex.com/a#f"] (str "b")).1 (str "http://ex.com/a")
      (by decide),
   (discover_links_spec (fun _ h => h) (str "ex.com")
      [str "http://ex.com/a#f"] (str "b")).2.1 (str "mailto:x@y") (by decide)⟩

end AutoTester
